import Mathlib

/-!
# Brew Home: cart store and checkout workflow (src/main.js)

A shallow embedding of the cart and checkout code of src/main.js.

Modelling conventions.

* A plain JavaScript object used as a string-keyed map (the cart, the
  PRODUCTS table) is an association list of its own properties in insertion
  order. Keys are product ids; they are assumed not to be names of inherited
  Object.prototype properties and not canonical array indices (which
  JavaScript would enumerate first). No theorem below depends on the
  enumeration order.
* Quantities and prices are integers (Int): the values of JavaScript numbers
  that are integral and inside the exactly representable range.
* localStorage holds three entries; each is modelled by its parsed value,
  with none for an absent key. JSON.stringify followed by JSON.parse is the
  identity on the values that occur here (strings and integers).
* DOM updates (updateNavCount, rendering) do not change the store and are
  either left out or modelled by the value they display.
-/

namespace BrewHome

/-- A string-keyed JavaScript object: its own properties in insertion order. -/
abbrev Obj (α : Type) := List (String × α)

/-- Property read, obj[key]: none stands for undefined. -/
def Obj.get {α : Type} : Obj α → String → Option α
  | [], _ => none
  | (k, v) :: rest, key => if k = key then some v else Obj.get rest key

/-- Property write, obj[key] = v: an existing property keeps its position,
a new one is appended. -/
def Obj.set {α : Type} : Obj α → String → α → Obj α
  | [], key, v => [(key, v)]
  | (k, w) :: rest, key, v =>
    if k = key then (k, v) :: rest else (k, w) :: Obj.set rest key v

/-- Property removal, delete obj[key]. -/
def Obj.delete {α : Type} : Obj α → String → Obj α
  | [], _ => []
  | (k, w) :: rest, key =>
    if k = key then Obj.delete rest key else (k, w) :: Obj.delete rest key

/-- The keys visited by for (const k in obj). -/
def Obj.keys {α : Type} (o : Obj α) : List String := o.map Prod.fst

/-- Well-formedness of the model of an object: a property name occurs once. -/
def Obj.WF {α : Type} (o : Obj α) : Prop := (Obj.keys o).Nodup

instance {α : Type} (o : Obj α) : Decidable (Obj.WF o) := by
  unfold Obj.WF; infer_instance

/-- An entry of the PRODUCTS table. -/
structure Product where
  id : String
  title : String
  price : Int
  image : String
deriving DecidableEq, Repr

/-- A cart line, the object literal created in addToCart. -/
structure CartLine where
  id : String
  title : String
  price : Int
  image : String
  qty : Int
deriving DecidableEq, Repr

/-- The cart object stored under STORAGE_KEY. -/
abbrev Cart := Obj CartLine

/-- The customer block of an order, also the record stored under brewhome_customer. -/
structure Customer where
  fullname : String
  phone : String
  email : String
  address : String
deriving DecidableEq, Repr

/-- The order object built by the checkout submit listener. -/
structure Order where
  id : String
  createdAt : String
  customer : Customer
  items : List CartLine
  subtotal : Int
  delivery : Int
  total : Int
deriving DecidableEq, Repr

/-- The three localStorage entries used by main.js, each as its parsed value;
none is an absent key. -/
structure LocalStorage where
  cart : Option Cart
  orders : Option (List Order)
  customer : Option Customer
deriving DecidableEq, Repr

/-- A localStorage with none of the three keys. -/
def LocalStorage.empty : LocalStorage := ⟨none, none, none⟩

def DELIVERY_FEE : Int := 30

/-- The PRODUCTS table. -/
def PRODUCTS : Obj Product :=
  [ ("cappuccino", ⟨"cappuccino", "Cappuccino", 220,
      "https://images.unsplash.com/photo-1509042239860-f550ce710b93?q=80&w=900&auto=format&fit=crop&ixlib=rb-4.0.3&s=3d8f0a8b7a7f"⟩),
    ("coldbrew", ⟨"coldbrew", "Cold Brew", 180,
      "https://images.unsplash.com/photo-1508057198894-247b23fe5ade?q=80&w=900&auto=format&fit=crop&ixlib=rb-4.0.3&s=5a2f1c1d6c07"⟩),
    ("instant", ⟨"instant", "Retro Instant", 120,
      "https://images.unsplash.com/photo-1544025162-d76694265947?q=80&w=900&auto=format&fit=crop&ixlib=rb-4.0.3&s=79929d7b8a3a"⟩),
    ("cheesecake", ⟨"cheesecake", "Classic Cheesecake", 260,
      "https://images.unsplash.com/photo-1541167760496-1628856ab772?q=80&w=900&auto=format&fit=crop&ixlib=rb-4.0.3&s=6d4a7b058d0f"⟩),
    ("brownie", ⟨"brownie", "Retro Brownie", 140,
      "https://images.unsplash.com/photo-1527515637463-2b1b6b2f2f9e?q=80&w=900&auto=format&fit=crop&ixlib=rb-4.0.3&s=9a1c40e3b8a1"⟩) ]

/-- The function loadCart: the stored cart, or the empty object when the key is absent. -/
def loadCart (ls : LocalStorage) : Cart := ls.cart.getD []

/-- The function saveCart. -/
def saveCart (cart : Cart) (ls : LocalStorage) : LocalStorage :=
  ⟨some cart, ls.orders, ls.customer⟩

/-- The function addToCart. The line is created with qty 0 when cart[productId]
is undefined, then its qty is incremented by the argument. -/
def addToCart (productId title : String) (price : Int) (image : String) (qty : Int)
    (ls : LocalStorage) : LocalStorage :=
  let cart := loadCart ls
  let cart :=
    match Obj.get cart productId with
    | none => Obj.set cart productId ⟨productId, title, price, image, 0⟩
    | some _ => cart
  let cart :=
    match Obj.get cart productId with
    | some line => Obj.set cart productId ⟨line.id, line.title, line.price, line.image, line.qty + qty⟩
    | none => cart
  saveCart cart ls

/-- The function removeFromCart. -/
def removeFromCart (productId : String) (ls : LocalStorage) : LocalStorage :=
  let cart := loadCart ls
  match Obj.get cart productId with
  | some _ => saveCart (Obj.delete cart productId) ls
  | none => ls

/-- The function updateQty. -/
def updateQty (productId : String) (qty : Int) (ls : LocalStorage) : LocalStorage :=
  let cart := loadCart ls
  match Obj.get cart productId with
  | some line =>
    let cart := Obj.set cart productId ⟨line.id, line.title, line.price, line.image, max 0 qty⟩
    let cart :=
      match Obj.get cart productId with
      | some l => if l.qty = 0 then Obj.delete cart productId else cart
      | none => cart
    saveCart cart ls
  | none => ls

/-- The function clearCart: localStorage.removeItem(STORAGE_KEY). -/
def clearCart (ls : LocalStorage) : LocalStorage := ⟨none, ls.orders, ls.customer⟩

/-- The object returned by cartTotals. -/
structure Totals where
  subtotal : Int
  count : Int
  items : List CartLine
deriving DecidableEq, Repr

/-- One iteration of the for-in loop of cartTotals at key k. -/
def cartTotalsStep (cart : Cart) (acc : Totals) (k : String) : Totals :=
  match Obj.get cart k with
  | some it => ⟨acc.subtotal + it.price * it.qty, acc.count + it.qty, acc.items ++ [it]⟩
  | none => acc

/-- The function cartTotals. -/
def cartTotals (ls : LocalStorage) : Totals :=
  let cart := loadCart ls
  (Obj.keys cart).foldl (cartTotalsStep cart) ⟨0, 0, []⟩

/-- The amount of one row as written by renderCartPage and renderCheckout:
price times qty. -/
def lineAmount (it : CartLine) : Int := it.price * it.qty

/-- The qty of the line of a product in a cart, 0 when the cart has no such line. -/
def lineQty (cart : Cart) (productId : String) : Int :=
  match Obj.get cart productId with
  | some line => line.qty
  | none => 0

/-- One call of a CartStore mutation, as issued by the page collaborators. -/
inductive CartOp where
  | add (productId title : String) (price : Int) (image : String) (qty : Int)
  | remove (productId : String)
  | updateQty (productId : String) (qty : Int)
  | clear
deriving DecidableEq, Repr

/-- Run one CartStore call on the store. -/
def CartOp.apply : CartOp → LocalStorage → LocalStorage
  | CartOp.add productId title price image qty, ls => addToCart productId title price image qty ls
  | CartOp.remove productId, ls => removeFromCart productId ls
  | CartOp.updateQty productId qty, ls => BrewHome.updateQty productId qty ls
  | CartOp.clear, ls => clearCart ls

/-- Run a sequence of CartStore calls, first call first. -/
def runOps (ops : List CartOp) (ls : LocalStorage) : LocalStorage :=
  ops.foldl (fun s op => CartOp.apply op s) ls

/-- The quantity argument of an add call is at least one; other calls are unconstrained. -/
def CartOp.addsPositive : CartOp → Prop
  | CartOp.add _ _ _ _ qty => 1 ≤ qty
  | _ => True

instance (op : CartOp) : Decidable (CartOp.addsPositive op) := by
  cases op <;> unfold CartOp.addsPositive <;> infer_instance

/-! ## Strings -/

/-- WhiteSpace and LineTerminator code points of ECMAScript, the characters
removed by String.prototype.trim. -/
def isWhiteSpace (c : Char) : Bool :=
  decide (c.toNat ∈ [0x09, 0x0A, 0x0B, 0x0C, 0x0D, 0x20, 0xA0, 0x1680, 0x2028, 0x2029,
    0x202F, 0x205F, 0x3000, 0xFEFF]) || (decide (0x2000 ≤ c.toNat) && decide (c.toNat ≤ 0x200A))

/-- String.prototype.trim. -/
def trim (s : String) : String :=
  String.mk ((s.data.dropWhile isWhiteSpace).reverse.dropWhile isWhiteSpace).reverse

/-- String.prototype.padStart. -/
def padStart (s : String) (targetLength : Nat) (padString : String) : String :=
  if targetLength ≤ s.length ∨ padString = "" then s
  else
    let fillLen := targetLength - s.length
    String.mk ((List.replicate fillLen padString.data).flatten.take fillLen) ++ s

/-! ## Numbers: the one floating-point product of generateOrderId -/

/-- Round a rational to the nearest integer, ties to the even one. -/
def roundHalfEven (q : ℚ) : ℤ :=
  let f := ⌊q⌋
  if q - f < 1 / 2 then f
  else if 1 / 2 < q - f then f + 1
  else if f % 2 = 0 then f else f + 1

/-- Exponent of the spacing of binary64 values around x: 52 below the binary
exponent of x, which is clamped at -1022 in the subnormal range. -/
def ulpExponent (x : ℚ) : ℤ := max (Int.log 2 |x|) (-1022) - 52

/-- Round a rational of magnitude below 2^1024 to the nearest IEEE 754 binary64
value, ties to even. -/
def roundToDouble (x : ℚ) : ℚ :=
  if x = 0 then 0 else roundHalfEven (x / 2 ^ ulpExponent x) * 2 ^ ulpExponent x

/-- A rational is a binary64 value: rounding leaves it unchanged. -/
def isDouble (x : ℚ) : Bool := decide (roundToDouble x = x) && decide (|x| < 2 ^ 1024)

/-- The Number product a * b: the exact product rounded to binary64. -/
def mulNumber (a b : ℚ) : ℚ := roundToDouble (a * b)

/-! ## Order id -/

/-- The values read from the Date object now: getFullYear, getMonth (0 to 11),
getDate, getHours, getMinutes. -/
structure DateTime where
  fullYear : Nat
  month : Nat
  date : Nat
  hours : Nat
  minutes : Nat
deriving DecidableEq, Repr

/-- The helper pad of generateOrderId: String(n).padStart(2, "0"). -/
def pad (n : Nat) : String := padStart (toString n) 2 "0"

/-- The random suffix of generateOrderId: Math.floor(Math.random()*9000)+1000. -/
def orderRand (random : ℚ) : Int := ⌊mulNumber random 9000⌋ + 1000

/-- The function generateOrderId, given the current Date and the value drawn
by Math.random. -/
def generateOrderId (now : DateTime) (random : ℚ) : String :=
  let date := toString now.fullYear ++ pad (now.month + 1) ++ pad now.date
  let time := pad now.hours ++ pad now.minutes
  let rand := orderRand random
  "BH-" ++ date ++ "-" ++ time ++ "-" ++ toString rand

/-- The decimal digits of n written in exactly w characters, most significant
first: a zero-padded field of width w. -/
def zeroPadded (w n : Nat) : String :=
  String.mk ((List.range w).reverse.map (fun i => Nat.digitChar (n / 10 ^ i % 10)))

/-! ## Checkout -/

/-- The raw values of the four inputs of the checkout form. -/
structure Form where
  fullname : String
  phone : String
  email : String
  address : String
deriving DecidableEq, Repr

/-- What the page supplies when the submit event fires: the form values, the
product parameter of location.search (none when absent), the two Date readings
and the Math.random draw. -/
structure Page where
  form : Form
  product : Option String
  now : DateTime
  isoNow : String
  random : ℚ
deriving DecidableEq

/-- What the submit listener does besides writing localStorage. -/
inductive Outcome where
  | alert (message : String)
  | redirect (href : String)
deriving DecidableEq, Repr

/-- The condition singleProduct && PRODUCTS[singleProduct], with the product it yields. -/
def quickBuyProduct (singleProduct : Option String) : Option Product :=
  match singleProduct with
  | some s => if s = "" then none else Obj.get PRODUCTS s
  | none => none

/-- The array [{ ...PRODUCTS[singleProduct], qty: 1 }]. -/
def quickBuyItems (p : Product) : List CartLine := [⟨p.id, p.title, p.price, p.image, 1⟩]

/-- The validation test of the submit listener on the trimmed fields. -/
def fieldsValid (f : Form) : Bool :=
  !(decide (trim f.fullname = "") || decide (trim f.phone = "")
    || decide (trim f.email = "") || decide (trim f.address = ""))

/-- What renderCheckout writes: the rows of #checkout-summary and the amount
of #checkout-total. -/
structure CheckoutView where
  rows : List CartLine
  total : Int
deriving DecidableEq, Repr

/-- The function renderCheckout on the checkout page. -/
def renderCheckout (product : Option String) (ls : LocalStorage) : CheckoutView :=
  let items :=
    match quickBuyProduct product with
    | some p => quickBuyItems p
    | none => (cartTotals ls).items
  if items.length = 0 then ⟨[], 0⟩
  else
    let subtotal := items.foldl (fun acc it => acc + it.price * it.qty) 0
    ⟨items, subtotal + DELIVERY_FEE⟩

/-- The order object literal of the submit listener. -/
def buildOrder (pg : Page) (ls : LocalStorage) : Order :=
  let t := cartTotals ls
  let orderItems :=
    match quickBuyProduct pg.product with
    | some p => quickBuyItems p
    | none => t.items
  ⟨generateOrderId pg.now pg.random, pg.isoNow,
    ⟨trim pg.form.fullname, trim pg.form.phone, trim pg.form.email, trim pg.form.address⟩,
    orderItems, t.subtotal, DELIVERY_FEE, t.subtotal + DELIVERY_FEE⟩

/-- The submit listener registered by bindCheckoutSubmit. -/
def bindCheckoutSubmit (pg : Page) (ls : LocalStorage) : LocalStorage × Outcome :=
  if fieldsValid pg.form = false then (ls, Outcome.alert "Please fill all required fields.")
  else
    let order := buildOrder pg ls
    let prevOrders := ls.orders.getD []
    let ls1 : LocalStorage := ⟨ls.cart, some (prevOrders ++ [order]), ls.customer⟩
    let ls2 :=
      match pg.product with
      | none => clearCart ls1
      | some s => if s = "" then clearCart ls1 else ls1
    (ls2, Outcome.redirect ("thankyou.html?orderId=" ++ order.id))

/-- The submit listener registered at the end of init: it stores the trimmed
customer details. -/
def initSubmitListener (pg : Page) (ls : LocalStorage) : LocalStorage :=
  ⟨ls.cart, ls.orders,
    some ⟨trim pg.form.fullname, trim pg.form.phone, trim pg.form.email, trim pg.form.address⟩⟩

/-- A submit event on the checkout form: init registers the listener of
bindCheckoutSubmit first and its own listener second, and both run. -/
def submit (pg : Page) (ls : LocalStorage) : LocalStorage × Outcome :=
  let r := bindCheckoutSubmit pg ls
  (initSubmitListener pg r.1, r.2)

/-! ## Sample inputs -/

/-- A Date reading: 5 March 2024, 09:07 local time. -/
def sampleNow : DateTime := ⟨2024, 2, 5, 9, 7⟩

/-- A form with four non-blank fields. -/
def filledForm : Form := ⟨"Asha Rao", " 9876543210", "asha@example.com", "12 Lake Road "⟩

/-- A form whose address holds only white space. -/
def blankAddressForm : Form := ⟨"Asha Rao", "9876543210", "asha@example.com", " \t "⟩

/-- The page state at a submit event with the given form and product parameter. -/
def pageOf (form : Form) (product : Option String) : Page :=
  ⟨form, product, sampleNow, "2024-03-05T03:37:00.000Z", 1 / 2⟩

/-- The cart with cappuccino: qty 2 at 220 and brownie: qty 1 at 140. -/
def twoLineCart : Cart :=
  [("cappuccino", ⟨"cappuccino", "Cappuccino", 220, "", 2⟩),
   ("brownie", ⟨"brownie", "Retro Brownie", 140, "", 1⟩)]

/-- A store holding twoLineCart, no order and no customer record. -/
def twoLineStore : LocalStorage := ⟨some twoLineCart, none, none⟩

/-! ## Lemmas on objects -/

theorem Obj.get_set_self {α : Type} (o : Obj α) (k : String) (v : α) :
    Obj.get (Obj.set o k v) k = some v := by
  induction o with
  | nil => simp [Obj.set, Obj.get]
  | cons hd tl ih =>
    obtain ⟨k0, w⟩ := hd
    by_cases h : k0 = k
    · simp [Obj.set, Obj.get, h]
    · simp [Obj.set, Obj.get, h, ih]

theorem Obj.get_set_ne {α : Type} (o : Obj α) (k k1 : String) (v : α) (hne : k1 ≠ k) :
    Obj.get (Obj.set o k v) k1 = Obj.get o k1 := by
  induction o with
  | nil =>
    have : ¬ k = k1 := fun h => hne h.symm
    simp [Obj.set, Obj.get, this]
  | cons hd tl ih =>
    obtain ⟨k0, w⟩ := hd
    by_cases h : k0 = k
    · subst h
      have : ¬ k0 = k1 := fun h => hne h.symm
      simp [Obj.set, Obj.get, this]
    · by_cases h1 : k0 = k1
      · subst h1
        simp [Obj.set, Obj.get, h]
      · simp [Obj.set, Obj.get, h, h1, ih]

theorem Obj.get_delete_self {α : Type} (o : Obj α) (k : String) :
    Obj.get (Obj.delete o k) k = none := by
  induction o with
  | nil => simp [Obj.delete, Obj.get]
  | cons hd tl ih =>
    obtain ⟨k0, w⟩ := hd
    by_cases h : k0 = k
    · simp [Obj.delete, h, ih]
    · simp [Obj.delete, Obj.get, h, ih]

theorem Obj.get_delete_ne {α : Type} (o : Obj α) (k k1 : String) (hne : k1 ≠ k) :
    Obj.get (Obj.delete o k) k1 = Obj.get o k1 := by
  induction o with
  | nil => simp [Obj.delete, Obj.get]
  | cons hd tl ih =>
    obtain ⟨k0, w⟩ := hd
    by_cases h : k0 = k
    · subst h
      have : ¬ k0 = k1 := fun h => hne h.symm
      simp [Obj.delete, Obj.get, this, ih]
    · by_cases h1 : k0 = k1
      · subst h1
        simp [Obj.delete, Obj.get, h]
      · simp [Obj.delete, Obj.get, h, h1, ih]

theorem Obj.mem_of_mem_set {α : Type} (o : Obj α) (k : String) (v : α) (kv : String × α)
    (h : kv ∈ Obj.set o k v) : kv = (k, v) ∨ kv ∈ o := by
  induction o with
  | nil =>
    simp [Obj.set] at h
    exact Or.inl h
  | cons hd tl ih =>
    obtain ⟨k0, w⟩ := hd
    by_cases h0 : k0 = k
    · subst h0
      simp [Obj.set] at h
      rcases h with h | h
      · exact Or.inl h
      · exact Or.inr (List.mem_cons_of_mem _ h)
    · simp [Obj.set, h0] at h
      rcases h with h | h
      · exact Or.inr (by rw [h]; exact List.mem_cons_self _ _)
      · rcases ih h with h1 | h1
        · exact Or.inl h1
        · exact Or.inr (List.mem_cons_of_mem _ h1)

theorem Obj.mem_of_mem_delete {α : Type} (o : Obj α) (k : String) (kv : String × α)
    (h : kv ∈ Obj.delete o k) : kv ∈ o ∧ kv.1 ≠ k := by
  induction o with
  | nil => simp [Obj.delete] at h
  | cons hd tl ih =>
    obtain ⟨k0, w⟩ := hd
    by_cases h0 : k0 = k
    · simp [Obj.delete, h0] at h
      exact ⟨List.mem_cons_of_mem _ (ih h).1, (ih h).2⟩
    · simp [Obj.delete, h0] at h
      rcases h with h | h
      · subst h
        exact ⟨List.mem_cons_self _ _, h0⟩
      · exact ⟨List.mem_cons_of_mem _ (ih h).1, (ih h).2⟩

theorem Obj.keys_set {α : Type} (o : Obj α) (k : String) (v : α) :
    Obj.keys (Obj.set o k v) = if k ∈ Obj.keys o then Obj.keys o else Obj.keys o ++ [k] := by
  induction o with
  | nil => simp [Obj.set, Obj.keys]
  | cons hd tl ih =>
    obtain ⟨k0, w⟩ := hd
    by_cases h0 : k0 = k
    · subst h0
      simp [Obj.set, Obj.keys]
    · have h1 : ¬ k = k0 := fun h => h0 h.symm
      simp only [Obj.keys] at ih
      by_cases hm : k ∈ List.map Prod.fst tl
      · simp [Obj.set, Obj.keys, h0, h1, hm] at ih ⊢
        exact ih
      · simp [Obj.set, Obj.keys, h0, h1, hm] at ih ⊢
        exact ih

theorem Obj.get_eq_none_iff {α : Type} (o : Obj α) (k : String) :
    Obj.get o k = none ↔ k ∉ Obj.keys o := by
  induction o with
  | nil => simp [Obj.get, Obj.keys]
  | cons hd tl ih =>
    obtain ⟨k0, w⟩ := hd
    by_cases h0 : k0 = k
    · simp [Obj.get, Obj.keys, h0]
    · have h1 : ¬ k = k0 := fun h => h0 h.symm
      simp only [Obj.keys] at ih
      simp [Obj.get, Obj.keys, h0, h1, ih]

theorem Obj.WF_set {α : Type} (o : Obj α) (k : String) (v : α) (h : Obj.WF o) :
    Obj.WF (Obj.set o k v) := by
  unfold Obj.WF at *
  rw [Obj.keys_set]
  by_cases hm : k ∈ Obj.keys o
  · simpa [hm] using h
  · simp only [hm, if_false]
    exact List.Nodup.append h (List.nodup_singleton k) (by simpa using hm)

theorem Obj.keys_delete {α : Type} (o : Obj α) (k : String) :
    Obj.keys (Obj.delete o k) = (Obj.keys o).filter (fun x => decide (x ≠ k)) := by
  induction o with
  | nil => simp [Obj.delete, Obj.keys]
  | cons hd tl ih =>
    obtain ⟨k0, w⟩ := hd
    simp only [Obj.keys] at ih
    by_cases h0 : k0 = k
    · simp [Obj.delete, Obj.keys, h0, ih]
    · simp [Obj.delete, Obj.keys, h0, ih]

theorem Obj.WF_delete {α : Type} (o : Obj α) (k : String) (h : Obj.WF o) :
    Obj.WF (Obj.delete o k) := by
  unfold Obj.WF at *
  rw [Obj.keys_delete]
  exact List.Nodup.filter _ h

theorem Obj.get_of_mem {α : Type} (o : Obj α) (h : Obj.WF o) (kv : String × α) (hm : kv ∈ o) :
    Obj.get o kv.1 = some kv.2 := by
  induction o with
  | nil => simp at hm
  | cons hd tl ih =>
    obtain ⟨k0, w⟩ := hd
    unfold Obj.WF at h
    simp only [Obj.keys, List.map_cons, List.nodup_cons] at h
    rcases List.mem_cons.mp hm with h1 | h1
    · subst h1
      simp [Obj.get]
    · have hne : ¬ k0 = kv.1 := by
        intro he
        apply h.1
        rw [he]
        exact List.mem_map_of_mem Prod.fst h1
      simp only [Obj.get, hne, if_false]
      exact ih h.2 h1

theorem Obj.mem_of_get {α : Type} (o : Obj α) (k : String) (v : α) (h : Obj.get o k = some v) :
    (k, v) ∈ o := by
  induction o with
  | nil => simp [Obj.get] at h
  | cons hd tl ih =>
    obtain ⟨k0, w⟩ := hd
    by_cases h0 : k0 = k
    · simp [Obj.get, h0] at h
      subst h0 h
      exact List.mem_cons_self _ _
    · simp [Obj.get, h0] at h
      exact List.mem_cons_of_mem _ (ih h)

theorem Obj.set_set {α : Type} (o : Obj α) (k : String) (v w : α) :
    Obj.set (Obj.set o k v) k w = Obj.set o k w := by
  induction o with
  | nil => simp [Obj.set]
  | cons hd tl ih =>
    obtain ⟨k0, u⟩ := hd
    by_cases h0 : k0 = k
    · simp [Obj.set, h0]
    · simp [Obj.set, h0, ih]

/-! ## The cart after each CartStore call -/

theorem loadCart_saveCart (cart : Cart) (ls : LocalStorage) :
    loadCart (saveCart cart ls) = cart := rfl

theorem loadCart_clearCart (ls : LocalStorage) : loadCart (clearCart ls) = [] := rfl

theorem loadCart_addToCart_some (productId title : String) (price : Int) (image : String)
    (qty : Int) (ls : LocalStorage) (line : CartLine)
    (h : Obj.get (loadCart ls) productId = some line) :
    loadCart (addToCart productId title price image qty ls)
      = Obj.set (loadCart ls) productId
          ⟨line.id, line.title, line.price, line.image, line.qty + qty⟩ := by
  simp only [addToCart, h, loadCart_saveCart]

theorem loadCart_addToCart_none (productId title : String) (price : Int) (image : String)
    (qty : Int) (ls : LocalStorage) (h : Obj.get (loadCart ls) productId = none) :
    loadCart (addToCart productId title price image qty ls)
      = Obj.set (loadCart ls) productId ⟨productId, title, price, image, 0 + qty⟩ := by
  simp only [addToCart, h, loadCart_saveCart, Obj.get_set_self, Obj.set_set]

theorem Obj.delete_of_get_none {α : Type} (o : Obj α) (k : String) (h : Obj.get o k = none) :
    Obj.delete o k = o := by
  induction o with
  | nil => rfl
  | cons hd tl ih =>
    obtain ⟨k0, u⟩ := hd
    by_cases h0 : k0 = k
    · simp [Obj.get, h0] at h
    · simp only [Obj.get, h0, if_false] at h
      simp only [Obj.delete, h0, if_false, ih h]

theorem loadCart_removeFromCart (productId : String) (ls : LocalStorage) :
    loadCart (removeFromCart productId ls) = Obj.delete (loadCart ls) productId := by
  cases h : Obj.get (loadCart ls) productId with
  | some l => simp only [removeFromCart, h, loadCart_saveCart]
  | none => simp only [removeFromCart, h, Obj.delete_of_get_none _ _ h]

theorem loadCart_updateQty_some (productId : String) (qty : Int) (ls : LocalStorage)
    (line : CartLine) (h : Obj.get (loadCart ls) productId = some line) :
    loadCart (updateQty productId qty ls)
      = if max 0 qty = 0 then Obj.delete (loadCart ls) productId
        else Obj.set (loadCart ls) productId
          ⟨line.id, line.title, line.price, line.image, max 0 qty⟩ := by
  simp only [updateQty, h, loadCart_saveCart, Obj.get_set_self]
  by_cases hq : max 0 qty = 0
  · simp only [hq, if_true]
    generalize loadCart ls = c
    induction c with
    | nil => simp [Obj.set, Obj.delete]
    | cons hd tl ih =>
      obtain ⟨k0, u⟩ := hd
      by_cases h0 : k0 = productId
      · simp [Obj.set, Obj.delete, h0]
      · simp [Obj.set, Obj.delete, h0, ih]
  · simp only [hq, if_false]

theorem loadCart_updateQty_none (productId : String) (qty : Int) (ls : LocalStorage)
    (h : Obj.get (loadCart ls) productId = none) :
    loadCart (updateQty productId qty ls) = loadCart ls := by
  simp only [updateQty, h]

/-- Well-formedness of the stored cart is kept by every CartStore call. -/
theorem WF_apply (op : CartOp) (ls : LocalStorage) (h : Obj.WF (loadCart ls)) :
    Obj.WF (loadCart (CartOp.apply op ls)) := by
  cases op with
  | add productId title price image qty =>
    simp only [CartOp.apply]
    cases hg : Obj.get (loadCart ls) productId with
    | some l => rw [loadCart_addToCart_some _ _ _ _ _ _ _ hg]; exact Obj.WF_set _ _ _ h
    | none => rw [loadCart_addToCart_none _ _ _ _ _ _ hg]; exact Obj.WF_set _ _ _ h
  | remove productId =>
    simp only [CartOp.apply]
    rw [loadCart_removeFromCart]; exact Obj.WF_delete _ _ h
  | updateQty productId qty =>
    simp only [CartOp.apply]
    cases hg : Obj.get (loadCart ls) productId with
    | some l =>
      rw [loadCart_updateQty_some _ _ _ _ hg]
      split
      · exact Obj.WF_delete _ _ h
      · exact Obj.WF_set _ _ _ h
    | none => rw [loadCart_updateQty_none _ _ _ hg]; exact h
  | clear =>
    simp only [CartOp.apply, loadCart_clearCart]
    exact List.nodup_nil

/-- Every entry of the cart after a CartStore call is an entry from before or
the line written by the call. -/
theorem mem_apply (op : CartOp) (ls : LocalStorage) (kv : String × CartLine)
    (hm : kv ∈ loadCart (CartOp.apply op ls)) :
    kv ∈ loadCart ls
    ∨ (∃ productId title price image qty line, op = CartOp.add productId title price image qty
        ∧ Obj.get (loadCart ls) productId = some line
        ∧ kv = (productId, ⟨line.id, line.title, line.price, line.image, line.qty + qty⟩))
    ∨ (∃ productId title price image qty, op = CartOp.add productId title price image qty
        ∧ Obj.get (loadCart ls) productId = none
        ∧ kv = (productId, ⟨productId, title, price, image, 0 + qty⟩))
    ∨ (∃ productId qty line, op = CartOp.updateQty productId qty
        ∧ Obj.get (loadCart ls) productId = some line ∧ max 0 qty ≠ 0
        ∧ kv = (productId, ⟨line.id, line.title, line.price, line.image, max 0 qty⟩)) := by
  cases op with
  | add productId title price image qty =>
    simp only [CartOp.apply] at hm
    cases hg : Obj.get (loadCart ls) productId with
    | some l =>
      rw [loadCart_addToCart_some _ _ _ _ _ _ _ hg] at hm
      rcases Obj.mem_of_mem_set _ _ _ _ hm with h1 | h1
      · exact Or.inr (Or.inl ⟨productId, title, price, image, qty, l, rfl, hg, h1⟩)
      · exact Or.inl h1
    | none =>
      rw [loadCart_addToCart_none _ _ _ _ _ _ hg] at hm
      rcases Obj.mem_of_mem_set _ _ _ _ hm with h1 | h1
      · exact Or.inr (Or.inr (Or.inl ⟨productId, title, price, image, qty, rfl, hg, h1⟩))
      · exact Or.inl h1
  | remove productId =>
    simp only [CartOp.apply] at hm
    rw [loadCart_removeFromCart] at hm
    exact Or.inl (Obj.mem_of_mem_delete _ _ _ hm).1
  | updateQty productId qty =>
    simp only [CartOp.apply] at hm
    cases hg : Obj.get (loadCart ls) productId with
    | some l =>
      rw [loadCart_updateQty_some _ _ _ _ hg] at hm
      by_cases hq : max 0 qty = 0
      · simp only [hq, if_true] at hm
        exact Or.inl (Obj.mem_of_mem_delete _ _ _ hm).1
      · simp only [hq, if_false] at hm
        rcases Obj.mem_of_mem_set _ _ _ _ hm with h1 | h1
        · exact Or.inr (Or.inr (Or.inr ⟨productId, qty, l, rfl, hg, hq, h1⟩))
        · exact Or.inl h1
    | none =>
      rw [loadCart_updateQty_none _ _ _ hg] at hm
      exact Or.inl hm
  | clear =>
    simp only [CartOp.apply, loadCart_clearCart] at hm
    exact absurd hm (List.not_mem_nil _)

theorem runOps_cons (op : CartOp) (ops : List CartOp) (ls : LocalStorage) :
    runOps (op :: ops) ls = runOps ops (CartOp.apply op ls) := rfl

theorem runOps_nil (ls : LocalStorage) : runOps [] ls = ls := rfl

/-! ## Cart invariants over sequences of calls -/

theorem qty_pos_apply (op : CartOp) (ls : LocalStorage) (hop : CartOp.addsPositive op)
    (hinv : ∀ kv ∈ loadCart ls, 1 ≤ kv.2.qty) :
    ∀ kv ∈ loadCart (CartOp.apply op ls), 1 ≤ kv.2.qty := by
  intro kv hm
  rcases mem_apply op ls kv hm with h | ⟨productId, title, price, image, qty, line, rfl, hg, rfl⟩
    | ⟨productId, title, price, image, qty, rfl, _, rfl⟩
    | ⟨productId, qty, line, rfl, _, hq, rfl⟩
  · exact hinv kv h
  · have h1 := hinv _ (Obj.mem_of_get _ _ _ hg)
    simp only [CartOp.addsPositive] at hop
    simp only at h1 ⊢
    omega
  · simp only [CartOp.addsPositive] at hop
    simp only
    omega
  · simp only
    omega

theorem qty_pos_runOps (ops : List CartOp) (ls : LocalStorage)
    (hops : ∀ op ∈ ops, CartOp.addsPositive op)
    (hinv : ∀ kv ∈ loadCart ls, 1 ≤ kv.2.qty) :
    ∀ kv ∈ loadCart (runOps ops ls), 1 ≤ kv.2.qty := by
  induction ops generalizing ls with
  | nil => simpa [runOps_nil] using hinv
  | cons op rest ih =>
    rw [runOps_cons]
    exact ih _ (fun o ho => hops o (List.mem_cons_of_mem _ ho))
      (qty_pos_apply op ls (hops op (List.mem_cons_self _ _)) hinv)

theorem id_eq_key_apply (op : CartOp) (ls : LocalStorage)
    (hinv : ∀ kv ∈ loadCart ls, kv.2.id = kv.1) :
    ∀ kv ∈ loadCart (CartOp.apply op ls), kv.2.id = kv.1 := by
  intro kv hm
  rcases mem_apply op ls kv hm with h | ⟨productId, title, price, image, qty, line, rfl, hg, rfl⟩
    | ⟨productId, title, price, image, qty, rfl, _, rfl⟩
    | ⟨productId, qty, line, rfl, hg, _, rfl⟩
  · exact hinv kv h
  · exact hinv (productId, line) (Obj.mem_of_get _ _ _ hg)
  · rfl
  · exact hinv (productId, line) (Obj.mem_of_get _ _ _ hg)

theorem inv_runOps (ops : List CartOp) (ls : LocalStorage)
    (hwf : Obj.WF (loadCart ls)) (hinv : ∀ kv ∈ loadCart ls, kv.2.id = kv.1) :
    Obj.WF (loadCart (runOps ops ls)) ∧ ∀ kv ∈ loadCart (runOps ops ls), kv.2.id = kv.1 := by
  induction ops generalizing ls with
  | nil => exact ⟨hwf, hinv⟩
  | cons op rest ih =>
    rw [runOps_cons]
    exact ih _ (WF_apply op ls hwf) (id_eq_key_apply op ls hinv)

/-- The loop of cartTotals over a list of entries that all read back from the
cart adds their amounts and quantities and appends their lines. -/
theorem foldl_cartTotalsStep (cart : Cart) (l : List (String × CartLine)) (acc : Totals)
    (h : ∀ kv ∈ l, Obj.get cart kv.1 = some kv.2) :
    (l.map Prod.fst).foldl (cartTotalsStep cart) acc
      = ⟨acc.subtotal + (l.map (fun kv => kv.2.price * kv.2.qty)).sum,
         acc.count + (l.map (fun kv => kv.2.qty)).sum,
         acc.items ++ l.map Prod.snd⟩ := by
  induction l generalizing acc with
  | nil => simp
  | cons hd tl ih =>
    have h1 := h hd (List.mem_cons_self _ _)
    simp only [List.map_cons, List.foldl_cons, List.sum_cons]
    rw [ih _ (fun kv hkv => h kv (List.mem_cons_of_mem _ hkv))]
    simp only [cartTotalsStep, h1, List.append_assoc, List.singleton_append, add_assoc]

theorem cartTotals_eq (ls : LocalStorage) (hwf : Obj.WF (loadCart ls)) :
    cartTotals ls
      = ⟨((loadCart ls).map (fun kv => kv.2.price * kv.2.qty)).sum,
         ((loadCart ls).map (fun kv => kv.2.qty)).sum,
         (loadCart ls).map Prod.snd⟩ := by
  unfold cartTotals
  simp only [Obj.keys]
  rw [foldl_cartTotalsStep _ _ _ (fun kv hkv => Obj.get_of_mem _ hwf kv hkv)]
  simp

/-! ## Claims on the cart store -/

theorem fieldsValid_eq_false_iff (f : Form) :
    fieldsValid f = false
      ↔ (trim f.fullname = "" ∨ trim f.phone = "" ∨ trim f.email = "" ∨ trim f.address = "") := by
  simp only [fieldsValid, Bool.not_eq_false', Bool.or_eq_true, decide_eq_true_eq, or_assoc]

theorem fieldsValid_eq_true_iff (f : Form) :
    fieldsValid f = true
      ↔ (trim f.fullname ≠ "" ∧ trim f.phone ≠ "" ∧ trim f.email ≠ "" ∧ trim f.address ≠ "") := by
  simp [fieldsValid, and_assoc]

theorem bindCheckoutSubmit_invalid (pg : Page) (ls : LocalStorage)
    (h : fieldsValid pg.form = false) :
    bindCheckoutSubmit pg ls = (ls, Outcome.alert "Please fill all required fields.") := by
  simp only [bindCheckoutSubmit, h, if_true]

theorem bindCheckoutSubmit_valid (pg : Page) (ls : LocalStorage)
    (h : fieldsValid pg.form = true) :
    bindCheckoutSubmit pg ls
      = ((match pg.product with
          | none => clearCart ⟨ls.cart, some (ls.orders.getD [] ++ [buildOrder pg ls]), ls.customer⟩
          | some s =>
            if s = "" then
              clearCart ⟨ls.cart, some (ls.orders.getD [] ++ [buildOrder pg ls]), ls.customer⟩
            else ⟨ls.cart, some (ls.orders.getD [] ++ [buildOrder pg ls]), ls.customer⟩),
         Outcome.redirect ("thankyou.html?orderId=" ++ (buildOrder pg ls).id)) := by
  simp [bindCheckoutSubmit, h]

theorem quickBuyProduct_eq_none (product : Option String)
    (h : ∀ s, product = some s → Obj.get PRODUCTS s = none) : quickBuyProduct product = none := by
  cases product with
  | none => rfl
  | some s =>
    simp only [quickBuyProduct]
    split
    · rfl
    · exact h s rfl

theorem cartTotals_of_loadCart_nil (ls : LocalStorage) (h : loadCart ls = []) :
    cartTotals ls = ⟨0, 0, []⟩ := by
  simp [cartTotals, h, Obj.keys]

/-- In cart mode on a well-formed cart the order records the sum of price*qty over
its own items and that sum plus the delivery fee. -/
theorem buildOrder_cart_mode (pg : Page) (ls : LocalStorage) (hwf : Obj.WF (loadCart ls))
    (hq : quickBuyProduct pg.product = none) :
    (buildOrder pg ls).subtotal = ((buildOrder pg ls).items.map lineAmount).sum
    ∧ (buildOrder pg ls).total = (buildOrder pg ls).subtotal + 30 := by
  constructor
  · simp only [buildOrder, hq, cartTotals_eq ls hwf, List.map_map]
    rfl
  · simp only [buildOrder, DELIVERY_FEE]

/-- C1 fails on the code in quick-buy mode. With valid fields and product=cappuccino
the order holds the single item cappuccino x 1 (amount 220) but its subtotal is the
subtotal of the cart: 0 and total 30 on an empty cart, 580 and total 610 on the
two-line cart, where the claim has 220 and 250. The checkout page rendered from the
same state shows 250. -/
theorem quick_buy_order_takes_cart_subtotal :
    fieldsValid filledForm = true
    ∧ ((submit (pageOf filledForm (some "cappuccino")) LocalStorage.empty).1.orders.getD []).map
        (fun o => (o.items.map (fun it => (it.id, it.price, it.qty)), o.subtotal, o.total))
      = [([("cappuccino", 220, 1)], 0, 30)]
    ∧ ((submit (pageOf filledForm (some "cappuccino")) twoLineStore).1.orders.getD []).map
        (fun o => (o.items.map (fun it => (it.id, it.price, it.qty)), o.subtotal, o.total))
      = [([("cappuccino", 220, 1)], 580, 610)]
    ∧ (renderCheckout (some "cappuccino") LocalStorage.empty).total = 250
    ∧ (renderCheckout (some "cappuccino") twoLineStore).total = 250 := by
  decide

/-- C5 fails on the code when the product parameter is present but names no known
product. With valid fields, product=latte and the two-line cart, the order is built
from the cart items (cart mode: subtotal 580, total 610), yet the cart is not
cleared: cartTotals afterwards still returns subtotal 580 and count 3. -/
theorem unknown_product_cart_not_cleared :
    fieldsValid filledForm = true
    ∧ Obj.get PRODUCTS "latte" = none
    ∧ ((submit (pageOf filledForm (some "latte")) twoLineStore).1.orders.getD []).map
        (fun o => (o.items, o.subtotal, o.total))
      = [(twoLineCart.map Prod.snd, 580, 610)]
    ∧ cartTotals (submit (pageOf filledForm (some "latte")) twoLineStore).1
      = ⟨580, 3, twoLineCart.map Prod.snd⟩
    ∧ cartTotals (submit (pageOf filledForm (some "latte")) twoLineStore).1 ≠ ⟨0, 0, []⟩ := by
  decide

/-- With valid fields and a product parameter that is absent or empty, the cart is
cleared: cartTotals afterwards returns subtotal 0, count 0 and no items. -/
theorem absent_product_clears_cart (pg : Page) (ls : LocalStorage)
    (hsel : pg.product = none ∨ pg.product = some "")
    (hv : trim pg.form.fullname ≠ "" ∧ trim pg.form.phone ≠ "" ∧ trim pg.form.email ≠ ""
      ∧ trim pg.form.address ≠ "") :
    cartTotals (submit pg ls).1 = ⟨0, 0, []⟩ := by
  have hvalid := (fieldsValid_eq_true_iff pg.form).mpr hv
  apply cartTotals_of_loadCart_nil
  rcases hsel with h | h <;>
    simp only [submit, initSubmitListener, bindCheckoutSubmit_valid pg ls hvalid, h, if_true,
      clearCart, loadCart, Option.getD_none]

/-- C6: for every state and every submission in which at least one of fullname,
phone, email, address is empty after trimming white space, submit reports the
validation failure, the order log is unchanged and the cart is exactly as it was. -/
theorem submit_blank_field_rejected (pg : Page) (ls : LocalStorage)
    (h : trim pg.form.fullname = "" ∨ trim pg.form.phone = "" ∨ trim pg.form.email = ""
      ∨ trim pg.form.address = "") :
    (submit pg ls).2 = Outcome.alert "Please fill all required fields."
    ∧ (submit pg ls).1.orders = ls.orders
    ∧ (submit pg ls).1.cart = ls.cart := by
  have hinv := (fieldsValid_eq_false_iff pg.form).mpr h
  refine ⟨?_, ?_, ?_⟩ <;> simp only [submit, initSubmitListener, bindCheckoutSubmit_invalid pg ls hinv]

/-- Witness of submit_blank_field_rejected: a white-space address, a stored
two-line cart. -/
theorem submit_blank_field_rejected_witness :
    (submit (pageOf blankAddressForm none) twoLineStore).2
      = Outcome.alert "Please fill all required fields."
    ∧ (submit (pageOf blankAddressForm none) twoLineStore).1.orders = twoLineStore.orders
    ∧ (submit (pageOf blankAddressForm none) twoLineStore).1.cart = twoLineStore.cart :=
  submit_blank_field_rejected (pageOf blankAddressForm none) twoLineStore (by decide)

/-- C7: for every cart and every successful submission in quick-buy mode (the product
parameter names a known product), the stored cart after the submission is the
stored cart before it; the submission is a success: its order is appended to the
log. -/
theorem quick_buy_keeps_cart (pg : Page) (ls : LocalStorage) (sel : String) (p : Product)
    (hsel : pg.product = some sel) (hp : Obj.get PRODUCTS sel = some p)
    (hv : trim pg.form.fullname ≠ "" ∧ trim pg.form.phone ≠ "" ∧ trim pg.form.email ≠ ""
      ∧ trim pg.form.address ≠ "") :
    (submit pg ls).1.cart = ls.cart
    ∧ (submit pg ls).1.orders = some (ls.orders.getD [] ++ [buildOrder pg ls]) := by
  have hvalid := (fieldsValid_eq_true_iff pg.form).mpr hv
  have hne : sel ≠ "" := by
    intro he
    have h0 : Obj.get PRODUCTS "" = none := by decide
    rw [he, h0] at hp
    exact Option.noConfusion hp
  refine ⟨?_, ?_⟩ <;>
    simp only [submit, initSubmitListener, bindCheckoutSubmit_valid pg ls hvalid, hsel, hne,
      if_false]

/-- Witness of quick_buy_keeps_cart: quick-buy of cappuccino over the two-line cart. -/
theorem quick_buy_keeps_cart_witness :
    (submit (pageOf filledForm (some "cappuccino")) twoLineStore).1.cart = twoLineStore.cart
    ∧ (submit (pageOf filledForm (some "cappuccino")) twoLineStore).1.orders
      = some (twoLineStore.orders.getD []
          ++ [buildOrder (pageOf filledForm (some "cappuccino")) twoLineStore]) :=
  quick_buy_keeps_cart (pageOf filledForm (some "cappuccino")) twoLineStore "cappuccino"
    ⟨"cappuccino", "Cappuccino", 220,
      "https://images.unsplash.com/photo-1509042239860-f550ce710b93?q=80&w=900&auto=format&fit=crop&ixlib=rb-4.0.3&s=3d8f0a8b7a7f"⟩
    rfl (by decide) (by decide)

/-- C9, as stated, fails: a submission that fails validation (white-space address)
on a store without a customer record leaves a customer record behind. -/
theorem failed_submit_overwrites_customer :
    fieldsValid blankAddressForm = false
    ∧ (submit (pageOf blankAddressForm none) LocalStorage.empty).1.customer
      ≠ LocalStorage.empty.customer
    ∧ (submit (pageOf blankAddressForm none) LocalStorage.empty).1.customer
      = some ⟨"Asha Rao", "9876543210", "asha@example.com", ""⟩ := by
  decide

/-- C9, amended: the stored customer profile is overwritten by every submission,
whether it passes validation or not: for every state, after a submit event the
stored customer profile holds the four trimmed field values of that submission. -/
theorem submit_overwrites_customer (pg : Page) (ls : LocalStorage) :
    (submit pg ls).1.customer
      = some ⟨trim pg.form.fullname, trim pg.form.phone, trim pg.form.email,
          trim pg.form.address⟩ := rfl

/-! ## Decimal strings -/

theorem toString_nat_eq (n : Nat) : toString n = String.mk (Nat.toDigits 10 n) := rfl

theorem toDigitsCore_one (f n : Nat) (ds : List Char) (h : n < 10) :
    Nat.toDigitsCore 10 (f + 1) n ds = Nat.digitChar n :: ds := by
  have h1 : n / 10 = 0 := by omega
  have h2 : n % 10 = n := by omega
  simp only [Nat.toDigitsCore, h1, h2, if_true]

theorem toDigitsCore_two (f n : Nat) (ds : List Char) (h0 : 10 ≤ n) (h : n < 100) :
    Nat.toDigitsCore 10 (f + 2) n ds
      = Nat.digitChar (n / 10) :: Nat.digitChar (n % 10) :: ds := by
  have h1 : ¬ n / 10 = 0 := by omega
  have h2 : n / 10 < 10 := by omega
  rw [Nat.toDigitsCore]
  simp only [h1, if_false]
  rw [toDigitsCore_one f _ _ h2]

theorem toDigitsCore_four (f n : Nat) (ds : List Char) (h0 : 1000 ≤ n) (h : n < 10000) :
    Nat.toDigitsCore 10 (f + 4) n ds
      = Nat.digitChar (n / 1000) :: Nat.digitChar (n / 100 % 10)
        :: Nat.digitChar (n / 10 % 10) :: Nat.digitChar (n % 10) :: ds := by
  have h1 : ¬ n / 10 = 0 := by omega
  have h2 : ¬ n / 10 / 10 = 0 := by omega
  have h3 : 10 ≤ n / 10 / 10 := by omega
  have h4 : n / 10 / 10 < 100 := by omega
  have h5 : n / 10 / 10 / 10 = n / 1000 := by omega
  have h6 : n / 10 / 10 % 10 = n / 100 % 10 := by omega
  rw [Nat.toDigitsCore]
  simp only [h1, if_false]
  rw [Nat.toDigitsCore]
  simp only [h2, if_false]
  rw [toDigitsCore_two f _ _ h3 h4, h5, h6]

theorem toDigits_one (n : Nat) (h : n < 10) : Nat.toDigits 10 n = [Nat.digitChar n] :=
  toDigitsCore_one n n [] h

theorem toDigits_two (n : Nat) (h0 : 10 ≤ n) (h : n < 100) :
    Nat.toDigits 10 n = [Nat.digitChar (n / 10), Nat.digitChar (n % 10)] := by
  obtain ⟨k, rfl⟩ : ∃ k, n = k + 1 := ⟨n - 1, by omega⟩
  exact toDigitsCore_two k (k + 1) [] h0 h

theorem toDigits_four (n : Nat) (h0 : 1000 ≤ n) (h : n < 10000) :
    Nat.toDigits 10 n = [Nat.digitChar (n / 1000), Nat.digitChar (n / 100 % 10),
      Nat.digitChar (n / 10 % 10), Nat.digitChar (n % 10)] := by
  obtain ⟨k, rfl⟩ : ∃ k, n = k + 3 := ⟨n - 3, by omega⟩
  exact toDigitsCore_four k (k + 3) [] h0 h

theorem pad_eq (n : Nat) (h : n < 100) :
    pad n = String.mk [Nat.digitChar (n / 10), Nat.digitChar (n % 10)] := by
  by_cases h10 : n < 10
  · have h1 : n / 10 = 0 := by omega
    have h2 : n % 10 = n := by omega
    simp [pad, padStart, toString_nat_eq, toDigits_one n h10, h1, h2]
    rfl
  · simp [pad, padStart, toString_nat_eq, toDigits_two n (by omega) h]


theorem zeroPadded_length (w n : Nat) : (zeroPadded w n).length = w := by
  simp [zeroPadded, String.length]

theorem zeroPadded_two (n : Nat) (h : n < 100) : zeroPadded 2 n = pad n := by
  rw [pad_eq n h]
  have h1 : n / 10 % 10 = n / 10 := by omega
  simp [zeroPadded, List.range_succ, h1]

theorem zeroPadded_four (n : Nat) (h0 : 1000 ≤ n) (h : n < 10000) :
    zeroPadded 4 n = toString n := by
  rw [toString_nat_eq, toDigits_four n h0 h]
  have h1 : n / 1000 % 10 = n / 1000 := by omega
  simp [zeroPadded, List.range_succ, h1]

theorem zeroPadded_time (hh mm : Nat) (h1 : hh < 100) (h2 : mm < 100) :
    zeroPadded 4 (hh * 100 + mm) = pad hh ++ pad mm := by
  rw [pad_eq hh h1, pad_eq mm h2]
  have e3 : (hh * 100 + mm) / 1000 % 10 = hh / 10 := by omega
  have e2 : (hh * 100 + mm) / 100 % 10 = hh % 10 := by omega
  have e1 : (hh * 100 + mm) / 10 % 10 = mm / 10 := by omega
  have e0 : (hh * 100 + mm) % 10 = mm % 10 := by omega
  simp [zeroPadded, List.range_succ, e3, e2, e1, e0]
  rfl

theorem zeroPadded_date (y m d : Nat) (hy0 : 1000 ≤ y) (hy : y < 10000) (hm : m < 100)
    (hd : d < 100) :
    zeroPadded 8 (y * 10000 + m * 100 + d) = toString y ++ pad m ++ pad d := by
  rw [pad_eq m hm, pad_eq d hd, toString_nat_eq, toDigits_four y hy0 hy]
  have e7 : (y * 10000 + m * 100 + d) / 10000000 % 10 = y / 1000 := by omega
  have e6 : (y * 10000 + m * 100 + d) / 1000000 % 10 = y / 100 % 10 := by omega
  have e5 : (y * 10000 + m * 100 + d) / 100000 % 10 = y / 10 % 10 := by omega
  have e4 : (y * 10000 + m * 100 + d) / 10000 % 10 = y % 10 := by omega
  have e3 : (y * 10000 + m * 100 + d) / 1000 % 10 = m / 10 := by omega
  have e2 : (y * 10000 + m * 100 + d) / 100 % 10 = m % 10 := by omega
  have e1 : (y * 10000 + m * 100 + d) / 10 % 10 = d / 10 := by omega
  have e0 : (y * 10000 + m * 100 + d) % 10 = d % 10 := by omega
  simp [zeroPadded, List.range_succ, e7, e6, e5, e4, e3, e2, e1, e0]
  rfl

theorem toString_int_of_nonneg (i : Int) (h : 0 ≤ i) : toString i = toString i.toNat := by
  obtain ⟨n, rfl⟩ := Int.eq_ofNat_of_zero_le h
  rfl

/-! ## The rounded product of generateOrderId -/

theorem roundHalfEven_nonneg (q : ℚ) (h : 0 ≤ q) : 0 ≤ roundHalfEven q := by
  have hf : 0 ≤ ⌊q⌋ := Int.floor_nonneg.mpr h
  simp only [roundHalfEven]
  split_ifs <;> omega

theorem roundHalfEven_le (q : ℚ) (N : ℤ) (h : q ≤ N) : roundHalfEven q ≤ N := by
  have hf : (⌊q⌋ : ℚ) ≤ q := Int.floor_le q
  have h1 : ⌊q⌋ ≤ N := by exact_mod_cast hf.trans h
  simp only [roundHalfEven]
  split_ifs with a b c
  · exact h1
  · have h2 : (⌊q⌋ : ℚ) < N := by linarith
    have h3 : ⌊q⌋ < N := by exact_mod_cast h2
    omega
  · exact h1
  · have h2 : (⌊q⌋ : ℚ) < N := by linarith [not_lt.mp a]
    have h3 : ⌊q⌋ < N := by exact_mod_cast h2
    omega

theorem roundHalfEven_le_pred (q : ℚ) (N : ℤ) (h : q < N - 1 / 2) : roundHalfEven q ≤ N - 1 := by
  have hf : (⌊q⌋ : ℚ) ≤ q := Int.floor_le q
  have h1 : ⌊q⌋ < N := by
    have : (⌊q⌋ : ℚ) < N := by linarith
    exact_mod_cast this
  simp only [roundHalfEven]
  split_ifs with a b c
  · omega
  · have h2 : (⌊q⌋ : ℚ) + 1 < N := by linarith
    have h3 : ⌊q⌋ + 1 < N := by exact_mod_cast h2
    omega
  · omega
  · have h2 : (⌊q⌋ : ℚ) + 1 < N := by linarith [not_lt.mp a]
    have h3 : ⌊q⌋ + 1 < N := by exact_mod_cast h2
    omega

theorem roundToDouble_nonneg (x : ℚ) (h0 : 0 ≤ x) : 0 ≤ roundToDouble x := by
  unfold roundToDouble
  split_ifs with hx
  · exact le_refl 0
  · have hu : (0 : ℚ) < 2 ^ ulpExponent x := zpow_pos (by norm_num) _
    have := roundHalfEven_nonneg (x / 2 ^ ulpExponent x) (div_nonneg h0 hu.le)
    exact mul_nonneg (by exact_mod_cast this) hu.le

theorem roundToDouble_lt (x : ℚ) (h0 : 0 ≤ x) (h : x ≤ 9000 - 9000 / 2 ^ 53) :
    roundToDouble x < 9000 := by
  unfold roundToDouble
  split_ifs with hx
  · norm_num
  · have hpos : 0 < x := lt_of_le_of_ne h0 (Ne.symm hx)
    have hu : (0 : ℚ) < 2 ^ ulpExponent x := zpow_pos (by norm_num) _
    have hlog14 : Int.log 2 x < 14 := by
      apply (Int.lt_zpow_iff_log_lt (by norm_num) hpos).mp
      norm_num
      linarith
    by_cases hlt : x < 8192
    · have hlog : Int.log 2 x < 13 := by
        apply (Int.lt_zpow_iff_log_lt (by norm_num) hpos).mp
        norm_num
        exact hlt
      have hk : ulpExponent x ≤ -40 := by
        simp only [ulpExponent, abs_of_pos hpos]
        omega
      generalize ulpExponent x = k at hk hu ⊢
      obtain ⟨n, hn⟩ : ∃ n : ℕ, (n : ℤ) = 13 - k := ⟨(13 - k).toNat, by omega⟩
      have hN : (((2 : ℤ) ^ n : ℤ) : ℚ) = 8192 / 2 ^ k := by
        push_cast
        rw [← zpow_natCast, hn, zpow_sub₀ (by norm_num)]
        norm_num
      have hr := roundHalfEven_le (x / 2 ^ k) ((2 : ℤ) ^ n)
        (by rw [hN]; exact div_le_div_of_nonneg_right hlt.le hu.le)
      have hr' : ((roundHalfEven (x / 2 ^ k) : ℤ) : ℚ) ≤ 8192 / 2 ^ k := by
        rw [← hN]; exact_mod_cast hr
      calc (roundHalfEven (x / 2 ^ k) : ℚ) * 2 ^ k ≤ 8192 / 2 ^ k * 2 ^ k :=
            mul_le_mul_of_nonneg_right hr' hu.le
        _ = 8192 := div_mul_cancel₀ _ hu.ne'
        _ < 9000 := by norm_num
    · have hlog : 13 ≤ Int.log 2 x := by
        apply (Int.zpow_le_iff_le_log (by norm_num) hpos).mp
        norm_num
        exact not_lt.mp hlt
      have hk : ulpExponent x = -39 := by
        simp only [ulpExponent, abs_of_pos hpos]
        omega
      rw [hk]
      have hq : x / 2 ^ (-39 : ℤ) < ((9000 * 2 ^ 39 : ℤ) : ℚ) - 1 / 2 := by
        have : x / 2 ^ (-39 : ℤ) = x * 2 ^ 39 := by
          rw [zpow_neg, div_inv_eq_mul]; norm_num
        rw [this]
        push_cast
        have : x * 2 ^ 39 ≤ (9000 - 9000 / 2 ^ 53) * 2 ^ 39 :=
          mul_le_mul_of_nonneg_right h (by norm_num)
        norm_num at this ⊢
        linarith
      have hr := roundHalfEven_le_pred _ _ hq
      have hr' : ((roundHalfEven (x / 2 ^ (-39 : ℤ)) : ℤ) : ℚ) ≤ 9000 * 2 ^ 39 - 1 := by
        exact_mod_cast hr
      have h39 : (0 : ℚ) < 2 ^ (-39 : ℤ) := zpow_pos (by norm_num) _
      calc (roundHalfEven (x / 2 ^ (-39 : ℤ)) : ℚ) * 2 ^ (-39 : ℤ)
            ≤ (9000 * 2 ^ 39 - 1) * 2 ^ (-39 : ℤ) := mul_le_mul_of_nonneg_right hr' h39.le
        _ < 9000 := by norm_num


theorem double_below_one (r : ℚ) (hd : isDouble r = true) (h0 : 0 ≤ r) (h1 : r < 1) :
    r ≤ 1 - 1 / 2 ^ 53 := by
  simp only [isDouble, Bool.and_eq_true, decide_eq_true_eq] at hd
  obtain ⟨hr, _⟩ := hd
  by_cases hx : r = 0
  · rw [hx]; norm_num
  · have hpos : 0 < r := lt_of_le_of_ne h0 (Ne.symm hx)
    have hlog : Int.log 2 r < 0 := by
      apply (Int.lt_zpow_iff_log_lt (by norm_num) hpos).mp
      norm_num
      exact h1
    by_cases hl : Int.log 2 r < -1
    · have hlt := Int.lt_zpow_succ_log_self (b := 2) (by norm_num) r
      have hle : ((2 : ℕ) : ℚ) ^ (Int.log 2 r + 1) ≤ ((2 : ℕ) : ℚ) ^ (-1 : ℤ) :=
        zpow_le_zpow_right₀ (by norm_num) (by omega)
      norm_num at hle
      have := lt_of_lt_of_le hlt hle
      norm_num
      linarith
    · have hk : ulpExponent r = -53 := by
        simp only [ulpExponent, abs_of_pos hpos]
        omega
      unfold roundToDouble at hr
      simp only [hx, if_false, hk] at hr
      generalize roundHalfEven (r / 2 ^ (-53 : ℤ)) = n at hr
      have h2 : (n : ℚ) < 2 ^ 53 := by
        have h3 : (n : ℚ) * 2 ^ (-53 : ℤ) < 1 := by rw [hr]; exact h1
        norm_num at h3 ⊢
        linarith
      have h4 : n < 2 ^ 53 := by exact_mod_cast h2
      have h5 : n ≤ 2 ^ 53 - 1 := by omega
      have h6 : (n : ℚ) ≤ 2 ^ 53 - 1 := by exact_mod_cast h5
      rw [← hr]
      norm_num at h6 ⊢
      linarith

theorem orderRand_bounds (r : ℚ) (hd : isDouble r = true) (h0 : 0 ≤ r) (h1 : r < 1) :
    1000 ≤ orderRand r ∧ orderRand r ≤ 9999 := by
  have hb := double_below_one r hd h0 h1
  have hx0 : 0 ≤ r * 9000 := mul_nonneg h0 (by norm_num)
  have hx1 : r * 9000 ≤ 9000 - 9000 / 2 ^ 53 := by
    norm_num at hb ⊢
    linarith
  have hf0 : 0 ≤ ⌊mulNumber r 9000⌋ := Int.floor_nonneg.mpr (roundToDouble_nonneg _ hx0)
  have hf1 : ⌊mulNumber r 9000⌋ < 9000 := by
    apply Int.floor_lt.mpr
    exact_mod_cast roundToDouble_lt _ hx0 hx1
  unfold orderRand
  omega

theorem log_two_eq (x : ℚ) (e : ℤ) (h1 : (2 : ℚ) ^ e ≤ x) (h2 : x < (2 : ℚ) ^ (e + 1)) :
    Int.log 2 x = e := by
  have hpos : 0 < x := lt_of_lt_of_le (zpow_pos (by norm_num) e) h1
  have ha : e ≤ Int.log 2 x := by
    apply (Int.zpow_le_iff_le_log (by norm_num) hpos).mp
    exact_mod_cast h1
  have hb : Int.log 2 x < e + 1 := by
    apply (Int.lt_zpow_iff_log_lt (by norm_num) hpos).mp
    exact_mod_cast h2
  omega

theorem roundHalfEven_intCast (n : ℤ) : roundHalfEven (n : ℚ) = n := by
  simp [roundHalfEven]

theorem isDouble_half : isDouble (1 / 2) = true := by
  have hl : Int.log 2 (1 / 2 : ℚ) = -1 := log_two_eq _ _ (by norm_num) (by norm_num)
  have hk : ulpExponent (1 / 2) = -53 := by
    have ha : |(1 / 2 : ℚ)| = 1 / 2 := abs_of_pos (by norm_num)
    simp only [ulpExponent, ha, hl]
    rfl
  have hq : (1 / 2 : ℚ) / 2 ^ (-53 : ℤ) = ((2 ^ 52 : ℤ) : ℚ) := by norm_num
  have hr : roundToDouble (1 / 2) = 1 / 2 := by
    have hne : ¬ (1 / 2 : ℚ) = 0 := by norm_num
    simp only [roundToDouble, hne, if_false, hk, hq, roundHalfEven_intCast]
    norm_num
  have hlt : |(1 / 2 : ℚ)| < 2 ^ 1024 := by
    rw [abs_of_pos (by norm_num)]
    exact lt_of_lt_of_le (by norm_num) (one_le_pow₀ (by norm_num))
  simp only [isDouble, hr, hlt, decide_True, Bool.and_self]

theorem orderRand_half : orderRand (1 / 2) = 5500 := by
  have hl : Int.log 2 (4500 : ℚ) = 12 := log_two_eq _ _ (by norm_num) (by norm_num)
  have hk : ulpExponent 4500 = -40 := by
    have ha : |(4500 : ℚ)| = 4500 := abs_of_pos (by norm_num)
    simp only [ulpExponent, ha, hl]
    rfl
  have hq : (4500 : ℚ) / 2 ^ (-40 : ℤ) = ((4500 * 2 ^ 40 : ℤ) : ℚ) := by norm_num
  have hr : roundToDouble 4500 = 4500 := by
    have hne : ¬ (4500 : ℚ) = 0 := by norm_num
    simp only [roundToDouble, hne, if_false, hk, hq, roundHalfEven_intCast]
    norm_num
  have hm : mulNumber (1 / 2) 9000 = 4500 := by
    have : (1 / 2 : ℚ) * 9000 = 4500 := by norm_num
    simp only [mulNumber, this, hr]
  have hf : ⌊(4500 : ℚ)⌋ = 4500 := by
    have := Int.floor_intCast (α := ℚ) 4500
    exact_mod_cast this
  simp only [orderRand, hm, hf]
  rfl

/-! ## Claim on the order id -/

/-- C10: for every wall-clock time with a four-digit year and every draw r of
Math.random (a binary64 value with 0 <= r < 1), generateOrderId returns BH- followed
by the zero-padded 8-digit date YYYYMMDD, a dash, the zero-padded 4-digit time HHMM,
a dash, and the decimal digits of floor(r*9000) + 1000, the product being the
Number product; that suffix is an integer in [1000, 9999] written with exactly four
digits, and the id is exactly 21 characters long. -/
theorem generateOrderId_format (now : DateTime) (r : ℚ)
    (hy : 1000 ≤ now.fullYear ∧ now.fullYear ≤ 9999) (hm : now.month ≤ 11)
    (hd : 1 ≤ now.date ∧ now.date ≤ 31) (hh : now.hours ≤ 23) (hmin : now.minutes ≤ 59)
    (hr : isDouble r = true) (h0 : 0 ≤ r) (h1 : r < 1) :
    generateOrderId now r
      = "BH-" ++ zeroPadded 8 (now.fullYear * 10000 + (now.month + 1) * 100 + now.date)
        ++ "-" ++ zeroPadded 4 (now.hours * 100 + now.minutes)
        ++ "-" ++ toString (⌊mulNumber r 9000⌋ + 1000)
    ∧ 1000 ≤ ⌊mulNumber r 9000⌋ + 1000
    ∧ ⌊mulNumber r 9000⌋ + 1000 ≤ 9999
    ∧ toString (⌊mulNumber r 9000⌋ + 1000) = zeroPadded 4 (⌊mulNumber r 9000⌋ + 1000).toNat
    ∧ (generateOrderId now r).length = 21 := by
  obtain ⟨hb0, hb1⟩ := orderRand_bounds r hr h0 h1
  simp only [orderRand] at hb0 hb1
  have hdigits : toString (⌊mulNumber r 9000⌋ + 1000)
      = zeroPadded 4 (⌊mulNumber r 9000⌋ + 1000).toNat := by
    rw [toString_int_of_nonneg _ (by omega), zeroPadded_four _ (by omega) (by omega)]
  have hid : generateOrderId now r
      = "BH-" ++ zeroPadded 8 (now.fullYear * 10000 + (now.month + 1) * 100 + now.date)
        ++ "-" ++ zeroPadded 4 (now.hours * 100 + now.minutes)
        ++ "-" ++ toString (⌊mulNumber r 9000⌋ + 1000) := by
    rw [zeroPadded_date _ _ _ hy.1 (by omega) (by omega) (by omega),
      zeroPadded_time _ _ (by omega) (by omega)]
    rfl
  refine ⟨hid, hb0, hb1, hdigits, ?_⟩
  rw [hid, hdigits]
  simp only [String.length_append, zeroPadded_length]
  rfl

/-- Witness of generateOrderId_format: 5 March 2024, 09:07, draw 1/2. -/
theorem generateOrderId_format_witness :
    generateOrderId sampleNow (1 / 2)
      = "BH-" ++ zeroPadded 8 (sampleNow.fullYear * 10000 + (sampleNow.month + 1) * 100
          + sampleNow.date)
        ++ "-" ++ zeroPadded 4 (sampleNow.hours * 100 + sampleNow.minutes)
        ++ "-" ++ toString (⌊mulNumber (1 / 2) 9000⌋ + 1000)
    ∧ 1000 ≤ ⌊mulNumber (1 / 2) 9000⌋ + 1000
    ∧ ⌊mulNumber (1 / 2) 9000⌋ + 1000 ≤ 9999
    ∧ toString (⌊mulNumber (1 / 2) 9000⌋ + 1000)
      = zeroPadded 4 (⌊mulNumber (1 / 2) 9000⌋ + 1000).toNat
    ∧ (generateOrderId sampleNow (1 / 2)).length = 21 :=
  generateOrderId_format sampleNow (1 / 2) (by decide) (by decide) (by decide) (by decide)
    (by decide) isDouble_half (by norm_num) (by norm_num)

/-- The id produced for 5 March 2024, 09:07 and the draw 1/2. -/
theorem generateOrderId_sample : generateOrderId sampleNow (1 / 2) = "BH-20240305-0907-5500" := by
  have h : generateOrderId sampleNow (1 / 2)
      = "BH-" ++ (toString sampleNow.fullYear ++ pad (sampleNow.month + 1) ++ pad sampleNow.date)
        ++ "-" ++ (pad sampleNow.hours ++ pad sampleNow.minutes) ++ "-"
        ++ toString (orderRand (1 / 2)) := rfl
  rw [h, orderRand_half]
  decide

end BrewHome
